import Mathlib

set_option maxRecDepth 10000

/-!
Verification development for the platform-aware file explorer
(`src/backend/examples/platform_file_explorer/main.py`).

The Python program is a GTK window driven both by a human operator and by an
external "platform" process speaking newline-delimited JSON over stdin/stdout.
This file gives a shallow embedding of its protocol/state-machine core:

* the filesystem is a finite model (`FS`): an association list of regular
  files (path to byte contents), a list of directory paths, and lists of
  paths on which the various OS calls (`stat`, `listdir`, `open`-for-write,
  `open`-for-read, `remove`/`rmdir`) raise, modelling external I/O failure;
* the window state is `Explorer` (`current_path`, the rows of the
  `Gtk.ListStore` as `Entry` values, and the tree view's selection as the
  full path stored in the selected row, cleared whenever the store is
  cleared, exactly as GTK clears the selection on `file_store.clear()`);
* each handler from `main.py` becomes a function returning an `Effect`:
  the new filesystem, the new window state, the JSON messages printed to
  stdout (`send_message`), and the diagnostic lines printed to stderr;
* Python byte strings are `List Nat` (each entry < 256); `base64.b64encode`
  / `b64decode` and UTF-8 text decoding are modelled from the standard
  algorithms the Python standard library implements (stdlib quirks on
  malformed base64 input, which no handler path exercised by a claim ever
  reaches, are not modelled);
* float rendering in `format_size` is view-only display logic no claim
  touches, so an entry keeps its raw byte count (`sizeBytes`, `none` for
  directories, mirroring the empty size column the source shows for them).
-/

/-! ## Base64 (models `base64.b64encode` / `base64.b64decode`) -/

/-- The standard base64 alphabet, as used by `base64.b64encode`. -/
def b64str : String := "ABCDEFGHIJKLMNOPQRSTUVWXYZabcdefghijklmnopqrstuvwxyz0123456789+/"

/-- Character of a 6-bit group. -/
def b64char (n : Nat) : Char := b64str.data.getD n 'A'

/-- Index of a character in the base64 alphabet (64 when absent). -/
def b64idxFrom : List Char → Char → Nat
  | [], _ => 64
  | a :: as, c => if a == c then 0 else 1 + b64idxFrom as c

/-- Inverse of `b64char` on the alphabet. -/
def b64idx (c : Char) : Nat := b64idxFrom b64str.data c

/-- Models `base64.b64encode` on a byte string: 3 bytes become 4 alphabet
characters, a trailing group of 1 or 2 bytes is padded with `=`. -/
def b64encodeBytes : List Nat → List Char
  | [] => []
  | [a] => [b64char (a / 4), b64char (a % 4 * 16), '=', '=']
  | [a, b] => [b64char (a / 4), b64char (a % 4 * 16 + b / 16), b64char (b % 16 * 4), '=']
  | a :: b :: c :: rest =>
    b64char (a / 4) :: b64char (a % 4 * 16 + b / 16) :: b64char (b % 16 * 4 + c / 64) ::
      b64char (c % 64) :: b64encodeBytes rest

/-- Models `base64.b64decode` on well-formed base64 text (the only inputs any
claim exercises): groups of 4 characters yield 3 bytes, `=`-padded final
groups yield 1 or 2 bytes. -/
def b64decodeChars : List Char → List Nat
  | c1 :: c2 :: c3 :: c4 :: rest =>
    if c3 == '=' then [b64idx c1 * 4 + b64idx c2 / 16]
    else if c4 == '=' then [b64idx c1 * 4 + b64idx c2 / 16, b64idx c2 % 16 * 16 + b64idx c3 / 4]
    else (b64idx c1 * 4 + b64idx c2 / 16) :: (b64idx c2 % 16 * 16 + b64idx c3 / 4) ::
      (b64idx c3 % 4 * 64 + b64idx c4) :: b64decodeChars rest
  | _ => []

/-- String form of `base64.b64encode(...).decode('utf-8')`. -/
def b64encodeStr (B : List Nat) : String := String.mk (b64encodeBytes B)

/-- String form of `base64.b64decode`. -/
def b64decodeStr (s : String) : List Nat := b64decodeChars s.data

/-! ## UTF-8 decoding (models text-mode reading with `encoding='utf-8'`) -/

/-- A UTF-8 continuation byte (`0x80..0xBF`). -/
def contByte (b : Nat) : Bool := 128 ≤ b && b < 192

/-- Code point of a 2-byte sequence. -/
def cp2 (b b2 : Nat) : Nat := (b - 192) * 64 + (b2 - 128)

/-- Code point of a 3-byte sequence. -/
def cp3 (b b2 b3 : Nat) : Nat := (b - 224) * 4096 + (b2 - 128) * 64 + (b3 - 128)

/-- Code point of a 4-byte sequence. -/
def cp4 (b b2 b3 b4 : Nat) : Nat :=
  (b - 240) * 262144 + (b2 - 128) * 4096 + (b3 - 128) * 64 + (b4 - 128)

/-- One-byte-per-step UTF-8 decoder with explicit fuel (each step consumes at
least one byte, so fuel equal to the list length always suffices). Rejects
overlong encodings, surrogates, code points above `0x10FFFF`, stray or missing
continuation bytes and invalid lead bytes, exactly as Python's strict `utf-8`
codec does; any invalid input yields `none`, modelling `UnicodeDecodeError`. -/
def utf8DecodeF : Nat → List Nat → Option (List Char)
  | _, [] => some []
  | 0, _ :: _ => none
  | f + 1, b :: rest =>
    if b < 128 then (utf8DecodeF f rest).map (fun cs => Char.ofNat b :: cs)
    else if 194 ≤ b && b < 224 then
      if 1 ≤ rest.length && contByte (rest.getD 0 0) then
        (utf8DecodeF f (rest.drop 1)).map (fun cs => Char.ofNat (cp2 b (rest.getD 0 0)) :: cs)
      else none
    else if 224 ≤ b && b < 240 then
      if 2 ≤ rest.length && contByte (rest.getD 0 0) && contByte (rest.getD 1 0) &&
          2048 ≤ cp3 b (rest.getD 0 0) (rest.getD 1 0) &&
          !(55296 ≤ cp3 b (rest.getD 0 0) (rest.getD 1 0) &&
            cp3 b (rest.getD 0 0) (rest.getD 1 0) < 57344) then
        (utf8DecodeF f (rest.drop 2)).map
          (fun cs => Char.ofNat (cp3 b (rest.getD 0 0) (rest.getD 1 0)) :: cs)
      else none
    else if 240 ≤ b && b < 245 then
      if 3 ≤ rest.length && contByte (rest.getD 0 0) && contByte (rest.getD 1 0) &&
          contByte (rest.getD 2 0) &&
          65536 ≤ cp4 b (rest.getD 0 0) (rest.getD 1 0) (rest.getD 2 0) &&
          cp4 b (rest.getD 0 0) (rest.getD 1 0) (rest.getD 2 0) < 1114112 then
        (utf8DecodeF f (rest.drop 3)).map
          (fun cs => Char.ofNat (cp4 b (rest.getD 0 0) (rest.getD 1 0) (rest.getD 2 0)) :: cs)
      else none
    else none
termination_by structural f => f

/-- Decode a whole byte string as UTF-8 (`none` models `UnicodeDecodeError`). -/
def utf8Decode (l : List Nat) : Option (List Char) := utf8DecodeF l.length l

/-! ## String helpers (model `os.path` and Python string operations) -/

/-- Python string truthiness for an optional string: `None` and `""` are
falsy, used by `if filename and data:` / `if selected ...:`. -/
def strTruthy : Option String → Bool
  | none => false
  | some s => !s.data.isEmpty

/-- Models `s.startswith(p)`. -/
def strHasPre (p s : String) : Bool := List.isPrefixOf p.data s.data

/-- Does the string end with a slash (used by `os.path.join`). -/
def endsSlash (s : String) : Bool := s.data.getLast? == some '/'

/-- Models `os.path.join(a, b)` for one component, as posixpath does: an
absolute second component replaces the first, otherwise the two are glued
with a single `/` unless the first is empty or already ends in `/`. -/
def pathJoin (a b : String) : String :=
  if strHasPre "/" b then b
  else if a == "" || endsSlash a then a ++ b
  else a ++ "/" ++ b

/-- Models `os.path.basename`: everything after the last `/`. -/
def basename (p : String) : String :=
  String.mk ((p.data.reverse.takeWhile (fun c => c != '/')).reverse)

/-- Models `os.path.dirname`: everything up to the last `/`, with trailing
slashes stripped unless the head consists only of slashes. -/
def dirname (p : String) : String :=
  let hrev := p.data.reverse.dropWhile (fun c => c != '/')
  let stripped := hrev.dropWhile (fun c => c == '/')
  if stripped.isEmpty then String.mk hrev.reverse else String.mk stripped.reverse

/-- Models `os.path.splitext(p)[1]`: the suffix of the basename starting at
its last dot, empty when there is no dot after a non-dot character (so a
leading-dot name such as `.bashrc` has no extension). -/
def extOf (p : String) : String :=
  let base := (basename p).data
  let afterDotRev := base.reverse.takeWhile (fun c => c != '.')
  if afterDotRev.length == base.length then ""
  else
    let before := base.take (base.length - afterDotRev.length - 1)
    if before.all (fun c => c == '.') then ""
    else String.mk ('.' :: afterDotRev.reverse)

/-- ASCII lower-casing of one character (models `str.lower` on the ASCII
extensions the source compares against). -/
def lowCh (c : Char) : Char :=
  if 65 ≤ c.toNat && c.toNat ≤ 90 then Char.ofNat (c.toNat + 32) else c

/-- Models `ext.lower()`. -/
def lowerStr (s : String) : String := String.mk (s.data.map lowCh)

/-- Lexicographic comparison of character lists by code point, the order
Python's `str` comparison uses. -/
def lexLe : List Char → List Char → Bool
  | [], _ => true
  | _ :: _, [] => false
  | a :: as, b :: bs =>
    if a.toNat < b.toNat then true
    else if b.toNat < a.toNat then false
    else lexLe as bs

/-- Python's `<=` on strings. -/
def nameLe (s t : String) : Bool := lexLe s.data t.data

/-- Insert into a sorted list (helper of `sortNames`). -/
def insertSorted (n : String) : List String → List String
  | [] => [n]
  | m :: rest => if nameLe n m then n :: m :: rest else m :: insertSorted n rest

/-- Models `entries.sort()`: the sorted-by-name permutation of the listing
(for a total order the sorted permutation is unique, so the choice of
sorting algorithm is immaterial). -/
def sortNames : List String → List String
  | [] => []
  | n :: rest => insertSorted n (sortNames rest)

/-! ## Filesystem model -/

/-- A finite filesystem: regular files with byte contents, directories, and
the sets of paths on which each OS call fails, modelling external I/O
errors (permissions, races, disk problems). -/
structure FS where
  files : List (String × List Nat) := []
  dirs : List String := []
  statFail : List String := []
  listFail : List String := []
  writeFail : List String := []
  readFail : List String := []
  rmFail : List String := []
deriving DecidableEq

/-- All paths that exist in the filesystem. -/
def FS.paths (fs : FS) : List String := fs.files.map (fun kv => kv.1) ++ fs.dirs

/-- Models `os.path.isfile`: `stat` succeeds and the path is a regular file. -/
def FS.isfile (fs : FS) (p : String) : Bool :=
  !fs.statFail.contains p && (fs.files.lookup p).isSome

/-- Models `os.path.isdir`: `stat` succeeds and the path is a directory. -/
def FS.isdir (fs : FS) (p : String) : Bool :=
  !fs.statFail.contains p && fs.dirs.contains p

/-- Models `os.stat(p).st_size`: `none` when `stat` raises (failure listed in
`statFail`, or no such path); directories report a nominal block size. -/
def FS.stat (fs : FS) (p : String) : Option Nat :=
  if fs.statFail.contains p then none
  else
    match fs.files.lookup p with
    | some c => some c.length
    | none => if fs.dirs.contains p then some 4096 else none

/-- The name `q` has under directory `dir`, when `q` is a direct child. -/
def childNameIn (dir q : String) : Option String :=
  let pre := if endsSlash dir then dir else dir ++ "/"
  if strHasPre pre q then
    let rest := q.data.drop pre.length
    if rest.isEmpty || rest.contains '/' then none else some (String.mk rest)
  else none

/-- Names of the direct children of a directory. -/
def FS.childNames (fs : FS) (dir : String) : List String :=
  fs.paths.filterMap (childNameIn dir)

/-- Models `os.listdir`: raises for paths listed in `listFail`, otherwise
returns the children's names. -/
def FS.listdir (fs : FS) (dir : String) : Except String (List String) :=
  if fs.listFail.contains dir then Except.error ("listing failed: " ++ dir)
  else Except.ok (fs.childNames dir)

/-- The filesystem after a successful write: the file is created or
replaced. -/
def FS.writePut (fs : FS) (p : String) (content : List Nat) : FS :=
  { fs with files := (p, content) :: fs.files.filter (fun kv => kv.1 != p) }

/-- Models `open(p, 'wb')` followed by `write`: raises for paths listed in
`writeFail`, otherwise creates or replaces the file. -/
def FS.writeF (fs : FS) (p : String) (content : List Nat) : Except String FS :=
  if fs.writeFail.contains p then Except.error ("write failed: " ++ p)
  else Except.ok (fs.writePut p content)

/-- Models `open(p, 'rb')` followed by `read`: raises for paths listed in
`readFail` or absent, otherwise returns the contents. -/
def FS.readF (fs : FS) (p : String) : Except String (List Nat) :=
  if fs.readFail.contains p then Except.error ("read failed: " ++ p)
  else
    match fs.files.lookup p with
    | some c => Except.ok c
    | none => Except.error ("No such file or directory: " ++ p)

/-- Models `os.remove`: raises for paths listed in `rmFail`, otherwise
deletes the file. -/
def FS.removeF (fs : FS) (p : String) : Except String FS :=
  if fs.rmFail.contains p then Except.error ("remove failed: " ++ p)
  else Except.ok { fs with files := fs.files.filter (fun kv => kv.1 != p) }

/-- Models `os.rmdir`: raises with the OS "Directory not empty" message when
the directory has children, raises for paths listed in `rmFail`, and
otherwise deletes the directory. -/
def FS.rmdir (fs : FS) (p : String) : Except String FS :=
  if !(fs.childNames p).isEmpty then Except.error ("Directory not empty: " ++ p)
  else if fs.rmFail.contains p then Except.error ("rmdir failed: " ++ p)
  else Except.ok { fs with dirs := fs.dirs.filter (fun q => q != p) }

/-! ## Window state, protocol messages, commands -/

/-- One row of the `Gtk.ListStore` (icon column omitted as pure rendering;
`sizeBytes` keeps the raw `st_size` the source feeds to its display-only
`format_size` float formatting, `none` for directories, whose size column the
source leaves empty). -/
structure Entry where
  name : String
  sizeBytes : Option Nat
  fullPath : String
  isDir : Bool
deriving DecidableEq

/-- The window's model state: `current_path`, the list-store rows, and the
tree view's selection, recorded as the full path held in column 3 of the
selected row (`get_selected_file`); clearing the store clears it. -/
structure Explorer where
  currentPath : String
  entries : List Entry
  selected : Option String
deriving DecidableEq

/-- Outbound protocol messages (`send_message` payloads). -/
inductive Msg where
  | state (path : String) (selected : Option String) (actions : List String)
  | uploadComplete (filename : String)
  | downloadData (filename : String) (data : String)
  | deleteComplete
  | error (message : String)
deriving DecidableEq

/-- Whether a message is a `state` snapshot. -/
def Msg.isStateMsg : Msg → Bool
  | .state _ _ _ => true
  | _ => false

/-- An inbound platform command: a JSON object with a `type` and optional
`filename` / `data` fields (absent fields are `none`). -/
structure Command where
  type : String
  filename : Option String := none
  data : Option String := none
deriving DecidableEq

/-- The result of running a handler: new filesystem, new window state, the
messages printed to stdout, and the diagnostics printed to stderr. -/
structure Effect where
  fs : FS
  st : Explorer
  msgs : List Msg
  logs : List String
deriving DecidableEq

/-- What the preview pane ends up showing (`preview_file` and helpers);
rendering details (scaling, widgets) are omitted, error labels keep their
messages. -/
inductive Preview where
  | image (path : String)
  | text (content : String)
  | unsupported (ext : String)
  | errorLabel (message : String)
deriving DecidableEq

/-! ## The handlers of `main.py` -/

/-- Models `get_selected_file` (main.py:233-239): the full path stored in the
selected row, when a row is selected. -/
def get_selected_file (st : Explorer) : Option String := st.selected

/-- Models `get_available_actions` (main.py:61-69). Python's truthiness test
`if selected and ...` is `strTruthy`; the `os.path.isfile` / `os.path.isdir`
probes consult the live filesystem. -/
def get_available_actions (fs : FS) (selected : Option String) : List String :=
  let actions := ["upload"]
  if strTruthy selected && fs.isfile (selected.getD "") then
    actions ++ ["download", "delete"]
  else if strTruthy selected && fs.isdir (selected.getD "") then
    actions ++ ["delete"]
  else actions

/-- The `state` message `send_state` (main.py:51-59) prints. -/
def stateMsg (fs : FS) (st : Explorer) : Msg :=
  Msg.state st.currentPath (get_selected_file st)
    (get_available_actions fs (get_selected_file st))

/-- The body of the per-child loop of `load_directory` (main.py:205-220):
skip hidden names, `stat` the joined path inside `try` (a failure skips the
child), and build the store row. -/
def rowOf (fs : FS) (path n : String) : Option Entry :=
  if strHasPre "." n then none
  else
    match fs.stat (pathJoin path n) with
    | none => none
    | some sz =>
      let isDir := fs.isdir (pathJoin path n)
      some { name := n, sizeBytes := if isDir then none else some sz,
             fullPath := pathJoin path n, isDir := isDir }

/-- Models `load_directory` (main.py:187-223). Returns early when the path is
not a directory; otherwise sets `current_path`, clears the store (which
clears the tree view's selection), lists the directory inside `try` (a
listing failure is printed to stderr, leaving the store empty), sorts the
names, and appends a row per non-hidden child whose `stat` succeeds. -/
def load_directory (fs : FS) (st : Explorer) (path : String) : Effect :=
  if fs.isdir path then
    let st1 : Explorer := { currentPath := path, entries := [], selected := none }
    match fs.listdir path with
    | Except.error e => ⟨fs, st1, [], ["Error loading directory: " ++ e]⟩
    | Except.ok names =>
      ⟨fs, { st1 with entries := (sortNames names).filterMap (rowOf fs path) }, [], []⟩
  else ⟨fs, st, [], []⟩

/-- Models `handle_upload` (main.py:82-96): with both fields truthy, joins the
filename onto `current_path`, decodes the base64 payload and writes it
(failures are reported as `error`), then reloads the current directory and
reports `upload_complete`; otherwise silently does nothing. -/
def handle_upload (fs : FS) (st : Explorer) (cmd : Command) : Effect :=
  if strTruthy cmd.filename && strTruthy cmd.data then
    let fn := cmd.filename.getD ""
    let filepath := pathJoin st.currentPath fn
    match fs.writeF filepath (b64decodeStr (cmd.data.getD "")) with
    | Except.error e => ⟨fs, st, [Msg.error e], []⟩
    | Except.ok fs1 =>
      let eff := load_directory fs1 st st.currentPath
      ⟨eff.fs, eff.st, eff.msgs ++ [Msg.uploadComplete fn], eff.logs⟩
  else ⟨fs, st, [], []⟩

/-- Models `handle_download_request` (main.py:98-112): with a truthy selection
that is a regular file, reads it and sends `download_data` with the base64
payload (read failures are reported as `error`); otherwise silently does
nothing. -/
def handle_download_request (fs : FS) (st : Explorer) : Effect :=
  let selected := get_selected_file st
  if strTruthy selected && fs.isfile (selected.getD "") then
    match fs.readF (selected.getD "") with
    | Except.error e => ⟨fs, st, [Msg.error e], []⟩
    | Except.ok bytes =>
      ⟨fs, st, [Msg.downloadData (basename (selected.getD "")) (b64encodeStr bytes)], []⟩
  else ⟨fs, st, [], []⟩

/-- Models `handle_delete` (main.py:114-126): with a truthy selection, removes
a regular file with `os.remove`, a directory with `os.rmdir` (failures,
including non-empty directories, are reported as `error` with the raised
message and skip the rest), otherwise removes nothing; after a removal branch
that did not raise it reloads the current directory and reports
`delete_complete`. -/
def handle_delete (fs : FS) (st : Explorer) : Effect :=
  let selected := get_selected_file st
  if strTruthy selected then
    let s := selected.getD ""
    if fs.isfile s then
      match fs.removeF s with
      | Except.error e => ⟨fs, st, [Msg.error e], []⟩
      | Except.ok fs1 =>
        let eff := load_directory fs1 st st.currentPath
        ⟨eff.fs, eff.st, eff.msgs ++ [Msg.deleteComplete], eff.logs⟩
    else if fs.isdir s then
      match fs.rmdir s with
      | Except.error e => ⟨fs, st, [Msg.error e], []⟩
      | Except.ok fs1 =>
        let eff := load_directory fs1 st st.currentPath
        ⟨eff.fs, eff.st, eff.msgs ++ [Msg.deleteComplete], eff.logs⟩
    else
      let eff := load_directory fs st st.currentPath
      ⟨eff.fs, eff.st, eff.msgs ++ [Msg.deleteComplete], eff.logs⟩
  else ⟨fs, st, [], []⟩

/-- Models `handle_command` (main.py:71-80): dispatch on the `type` field,
unknown types are dropped. -/
def handle_command (fs : FS) (st : Explorer) (cmd : Command) : Effect :=
  if cmd.type == "upload" then handle_upload fs st cmd
  else if cmd.type == "download_request" then handle_download_request fs st
  else if cmd.type == "delete" then handle_delete fs st
  else ⟨fs, st, [], []⟩

/-- Models `on_path_changed` (main.py:241-246): when the typed path is a
directory, load it and send state. -/
def on_path_changed (fs : FS) (st : Explorer) (text : String) : Effect :=
  if fs.isdir text then
    let eff := load_directory fs st text
    ⟨eff.fs, eff.st, eff.msgs ++ [stateMsg eff.fs eff.st], eff.logs⟩
  else ⟨fs, st, [], []⟩

/-- Models `on_up_clicked` (main.py:248-253): when not already at the
filesystem root, load the parent and send state. -/
def on_up_clicked (fs : FS) (st : Explorer) : Effect :=
  let parent := dirname st.currentPath
  if parent != st.currentPath then
    let eff := load_directory fs st parent
    ⟨eff.fs, eff.st, eff.msgs ++ [stateMsg eff.fs eff.st], eff.logs⟩
  else ⟨fs, st, [], []⟩

/-- Models `on_file_activated` (main.py:255-265): double-clicking a row; a
directory is loaded (followed by send state), a file is previewed (view-only,
no protocol output). GTK only delivers activations of existing rows, so an
out-of-range index is a no-op. -/
def on_file_activated (fs : FS) (st : Explorer) (i : Nat) : Effect :=
  match st.entries[i]? with
  | none => ⟨fs, st, [], []⟩
  | some e =>
    if fs.isdir e.fullPath then
      let eff := load_directory fs st e.fullPath
      ⟨eff.fs, eff.st, eff.msgs ++ [stateMsg eff.fs eff.st], eff.logs⟩
    else ⟨fs, st, [], []⟩

/-- Models a cursor change in the tree view followed by
`on_selection_changed` (main.py:267-272): the selection becomes the row under
the cursor (or nothing), the preview is refreshed (view-only), and state is
sent. -/
def user_select (fs : FS) (st : Explorer) (cur : Option Nat) : Effect :=
  let st1 : Explorer := { st with selected :=
    match cur with
    | none => none
    | some i =>
      match st.entries[i]? with
      | some e => some e.fullPath
      | none => none }
  ⟨fs, st1, [stateMsg fs st1], []⟩

/-- Every way the model state can be mutated: an inbound platform command, or
one of the user gestures. -/
inductive Op where
  | command (c : Command)
  | pathEdit (text : String)
  | upClick
  | activate (i : Nat)
  | selectRow (cur : Option Nat)
deriving DecidableEq

/-- One transition of the explorer. -/
def step (fs : FS) (st : Explorer) : Op → Effect
  | Op.command c => handle_command fs st c
  | Op.pathEdit t => on_path_changed fs st t
  | Op.upClick => on_up_clicked fs st
  | Op.activate i => on_file_activated fs st i
  | Op.selectRow cur => user_select fs st cur

/-- The selection invariant: if a selection is present it is the full path of
some store row, or (degenerately) the current path itself. -/
def selOk (st : Explorer) : Prop :=
  st.selected = none ∨ st.selected = some st.currentPath ∨
    ∃ e ∈ st.entries, st.selected = some e.fullPath

/-! ## Preview classification (models `preview_file` and `preview_text`) -/

/-- The image extensions of main.py:283. -/
def imageExts : List String := [".jpg", ".jpeg", ".png", ".gif", ".bmp"]

/-- The text extensions of main.py:285. -/
def textExts : List String := [".txt", ".md", ".py", ".rs", ".js", ".json", ".xml", ".html"]

/-- Models `preview_text` (main.py:319-337): opens the file in text mode as
UTF-8 and reads at most 10000 characters (`f.read(10000)`); open/read/decode
failures are shown as an error label. -/
def preview_text (fs : FS) (p : String) : Preview :=
  match fs.readF p with
  | Except.error e => Preview.errorLabel ("Error loading text: " ++ e)
  | Except.ok bytes =>
    match utf8Decode bytes with
    | none => Preview.errorLabel "Error loading text: UnicodeDecodeError"
    | some chars => Preview.text (String.mk (chars.take 10000))

/-- Models `preview_file` (main.py:274-294): dispatch on the lower-cased
extension; image rendering is view-only so an image file is classified as
`Preview.image`. -/
def preview_file (fs : FS) (p : String) : Preview :=
  let ext := lowerStr (extOf p)
  if imageExts.contains ext then Preview.image p
  else if textExts.contains ext then preview_text fs p
  else Preview.unsupported ext

/-- The byte string consisting of `n` copies of the two-byte UTF-8 encoding
`0xC3 0xA9` of U+00E9 (a 2-bytes-per-character text used to exercise the
character-versus-byte distinction in `preview_text`). -/
def eAcuteBytes : Nat → List Nat
  | 0 => []
  | n + 1 => 195 :: 169 :: eAcuteBytes n

/-- A small filesystem used to instantiate theorems: one home directory with
one text file. -/
def fsEx : FS := { files := [("/home/a.txt", [104, 105])], dirs := ["/home"] }

/-- A window state sitting in the home directory with nothing selected. -/
def stEx : Explorer := ⟨"/home", [], none⟩

/-- A window state with the text file of `fsEx` listed and selected. -/
def stSelEx : Explorer :=
  ⟨"/home", [⟨"a.txt", some 2, "/home/a.txt", false⟩], some "/home/a.txt"⟩

/-- A filesystem whose home directory also holds a hidden file, a file whose
`stat` raises, and a subdirectory. -/
def fsLoadEx : FS :=
  { files := [("/home/a.txt", [104, 105]), ("/home/.hidden", [1]), ("/home/bad", [2])],
    dirs := ["/home", "/home/sub"],
    statFail := ["/home/bad"] }

/-! ## Helper lemmas -/

theorem b64idx_b64char : ∀ n, n < 64 → b64idx (b64char n) = n := by decide

theorem b64char_ne_pad : ∀ n, n < 64 → (b64char n == '=') = false := by decide

/-- Decoding inverts encoding on byte strings. -/
theorem b64_roundtrip : ∀ B : List Nat, (∀ b ∈ B, b < 256) →
    b64decodeChars (b64encodeBytes B) = B := by
  intro B
  induction B using b64encodeBytes.induct with
  | case1 => intro _; rfl
  | case2 a =>
    intro h
    have ha : a < 256 := h a (by simp)
    have h1 : a / 4 < 64 := by omega
    have h2 : a % 4 * 16 < 64 := by omega
    simp only [b64encodeBytes, b64decodeChars, beq_self_eq_true, if_pos,
      b64idx_b64char _ h1, b64idx_b64char _ h2, List.cons.injEq, and_true]
    omega
  | case3 a b =>
    intro h
    have ha : a < 256 := h a (by simp)
    have hb : b < 256 := h b (by simp)
    have h1 : a / 4 < 64 := by omega
    have h2 : a % 4 * 16 + b / 16 < 64 := by omega
    have h3 : b % 16 * 4 < 64 := by omega
    simp only [b64encodeBytes, b64decodeChars, b64char_ne_pad _ h3, beq_self_eq_true,
      Bool.false_eq_true, if_false, if_pos, b64idx_b64char _ h1, b64idx_b64char _ h2,
      b64idx_b64char _ h3, List.cons.injEq, and_true]
    omega
  | case4 a b c rest ih =>
    intro h
    have ha : a < 256 := h a (by simp)
    have hb : b < 256 := h b (by simp)
    have hc : c < 256 := h c (by simp)
    have h1 : a / 4 < 64 := by omega
    have h2 : a % 4 * 16 + b / 16 < 64 := by omega
    have h3 : b % 16 * 4 + c / 64 < 64 := by omega
    have h4 : c % 64 < 64 := by omega
    have ihr := ih (fun x hx => h x (by simp [hx]))
    simp only [b64encodeBytes, b64decodeChars, b64char_ne_pad _ h3, b64char_ne_pad _ h4,
      Bool.false_eq_true, if_false, b64idx_b64char _ h1, b64idx_b64char _ h2,
      b64idx_b64char _ h3, b64idx_b64char _ h4, ihr, List.cons.injEq, and_true]
    refine ⟨by omega, by omega, by omega⟩

/-- String form of the round trip. -/
theorem b64_roundtrip_str (B : List Nat) (h : ∀ b ∈ B, b < 256) :
    b64decodeStr (b64encodeStr B) = B := b64_roundtrip B h

/-- The encoding of a non-empty byte string is non-empty. -/
theorem b64encodeBytes_ne_nil (B : List Nat) (h : B ≠ []) : b64encodeBytes B ≠ [] := by
  match B with
  | [] => exact absurd rfl h
  | [a] => simp [b64encodeBytes]
  | [a, b] => simp [b64encodeBytes]
  | a :: b :: c :: rest => simp [b64encodeBytes]

/-- Joining a non-empty component yields a non-empty path. -/
theorem pathJoin_ne_nil (a b : String) (h : b.data ≠ []) : (pathJoin a b).data ≠ [] := by
  unfold pathJoin
  split
  · exact h
  · split <;> simp [String.data_append] <;> intro h1 h2 <;> exact h h2

/-- `load_directory` never prints a protocol message (its diagnostics go to
stderr only). -/
theorem load_msgs_nil (fs : FS) (st : Explorer) (p : String) :
    (load_directory fs st p).msgs = [] := by
  unfold load_directory
  split
  · split <;> rfl
  · rfl

/-- `load_directory` never touches the filesystem. -/
theorem load_fs_eq (fs : FS) (st : Explorer) (p : String) :
    (load_directory fs st p).fs = fs := by
  unfold load_directory
  split
  · split <;> rfl
  · rfl

/-- A load of a valid directory clears the selection (clearing the store
clears the tree view's selection). -/
theorem load_sel_none (fs : FS) (st : Explorer) (p : String) (h : fs.isdir p = true) :
    (load_directory fs st p).st.selected = none := by
  unfold load_directory
  rw [if_pos h]
  split <;> rfl

/-- A load either clears the selection or leaves the state untouched. -/
theorem load_st_cases (fs : FS) (st : Explorer) (p : String) :
    (load_directory fs st p).st.selected = none ∧ (load_directory fs st p).st.currentPath = p
      ∨ (load_directory fs st p).st = st := by
  unfold load_directory
  split
  · split <;> exact Or.inl ⟨rfl, rfl⟩
  · exact Or.inr rfl

theorem lexLe_total (a b : List Char) : lexLe a b = true ∨ lexLe b a = true := by
  induction a generalizing b with
  | nil => left; rfl
  | cons x xs ih =>
    cases b with
    | nil => right; rfl
    | cons y ys =>
      simp only [lexLe]
      rcases Nat.lt_trichotomy x.toNat y.toNat with h | h | h
      · left; simp [h]
      · rcases ih ys with h2 | h2 <;> [left; right] <;> simp [h, h2, Nat.lt_irrefl]
      · right; simp [h, Nat.lt_asymm h]

theorem lexLe_trans (a b c : List Char) (h1 : lexLe a b = true) (h2 : lexLe b c = true) :
    lexLe a c = true := by
  induction a generalizing b c with
  | nil => rfl
  | cons x xs ih =>
    cases b with
    | nil => simp [lexLe] at h1
    | cons y ys =>
      cases c with
      | nil => simp [lexLe] at h2
      | cons z zs =>
        simp only [lexLe] at h1 h2 ⊢
        rcases Nat.lt_trichotomy x.toNat y.toNat with hxy | hxy | hxy <;>
          rcases Nat.lt_trichotomy y.toNat z.toNat with hyz | hyz | hyz
        · rw [if_pos (by omega)]
        · rw [if_pos (by omega)]
        · rw [if_neg (by omega), if_pos (by omega)] at h2; simp at h2
        · rw [if_pos (by omega)]
        · rw [if_neg (by omega), if_neg (by omega)] at h1
          rw [if_neg (by omega), if_neg (by omega)] at h2
          rw [if_neg (by omega), if_neg (by omega)]
          exact ih ys zs h1 h2
        · rw [if_neg (by omega), if_pos (by omega)] at h2; simp at h2
        · rw [if_neg (by omega), if_pos (by omega)] at h1; simp at h1
        · rw [if_neg (by omega), if_pos (by omega)] at h1; simp at h1
        · rw [if_neg (by omega), if_pos (by omega)] at h1; simp at h1

theorem nameLe_total (a b : String) : nameLe a b = true ∨ nameLe b a = true :=
  lexLe_total a.data b.data

theorem nameLe_trans (a b c : String) (h1 : nameLe a b = true) (h2 : nameLe b c = true) :
    nameLe a c = true := lexLe_trans a.data b.data c.data h1 h2

theorem mem_insertSorted (n b : String) (l : List String) :
    b ∈ insertSorted n l ↔ b = n ∨ b ∈ l := by
  induction l with
  | nil => simp [insertSorted]
  | cons m rest ih =>
    simp only [insertSorted]
    split
    · simp [or_comm, or_assoc, List.mem_cons]
    · simp only [List.mem_cons, ih]
      tauto

theorem pairwise_insertSorted (n : String) (l : List String)
    (h : l.Pairwise (fun a b => nameLe a b = true)) :
    (insertSorted n l).Pairwise (fun a b => nameLe a b = true) := by
  induction l with
  | nil => simp [insertSorted]
  | cons m rest ih =>
    rw [List.pairwise_cons] at h
    simp only [insertSorted]
    split
    · rw [List.pairwise_cons]
      refine ⟨?_, List.pairwise_cons.mpr h⟩
      intro b hb
      rcases List.mem_cons.mp hb with hb | hb
      · subst hb; assumption
      · exact nameLe_trans n m b (by assumption) (h.1 b hb)
    · rw [List.pairwise_cons]
      refine ⟨?_, ih h.2⟩
      intro b hb
      rcases (mem_insertSorted n b rest).mp hb with hb | hb
      · rw [hb]
        rcases nameLe_total n m with hnm | hnm
        · simp_all
        · exact hnm
      · exact h.1 b hb

theorem sortNames_pairwise (l : List String) :
    (sortNames l).Pairwise (fun a b => nameLe a b = true) := by
  induction l with
  | nil => simp [sortNames]
  | cons n rest ih => exact pairwise_insertSorted n (sortNames rest) ih

theorem mem_sortNames (b : String) (l : List String) : b ∈ sortNames l ↔ b ∈ l := by
  induction l with
  | nil => simp [sortNames]
  | cons n rest ih =>
    simp only [sortNames, mem_insertSorted, ih, List.mem_cons]

/-- What a produced store row looks like. -/
theorem rowOf_eq_some (fs : FS) (path n : String) (e : Entry) (h : rowOf fs path n = some e) :
    e.name = n ∧ e.fullPath = pathJoin path n ∧ strHasPre "." n = false ∧
      fs.stat (pathJoin path n) ≠ none := by
  unfold rowOf at h
  split at h
  · exact absurd h (by simp)
  · split at h
    · exact absurd h (by simp)
    · cases h
      refine ⟨rfl, rfl, by simp_all, by simp_all⟩

/-- A non-hidden child whose `stat` succeeds produces a row. -/
theorem rowOf_isSome (fs : FS) (path n : String) (hh : strHasPre "." n = false)
    (hs : fs.stat (pathJoin path n) ≠ none) :
    ∃ e, rowOf fs path n = some e ∧ e.name = n ∧ e.fullPath = pathJoin path n := by
  unfold rowOf
  rw [if_neg (by simp [hh])]
  match hsv : fs.stat (pathJoin path n) with
  | none => exact absurd hsv hs
  | some sz => exact ⟨_, rfl, rfl, rfl⟩

theorem utf8DecodeF_eAcuteBytes : ∀ n f, 2 * n ≤ f →
    utf8DecodeF f (eAcuteBytes n) = some (List.replicate n (Char.ofNat 233)) := by
  intro n
  induction n with
  | zero => intro f _; cases f <;> rfl
  | succ k ih =>
    intro f hf
    match f, hf with
    | g + 1, _ =>
      show utf8DecodeF (g + 1) (195 :: 169 :: eAcuteBytes k) = _
      rw [utf8DecodeF]
      rw [if_neg (by decide), if_pos (by decide)]
      rw [if_pos (by simp [contByte])]
      rw [show (169 :: eAcuteBytes k).drop 1 = eAcuteBytes k from rfl]
      rw [ih g (by omega), List.replicate_succ]
      rfl

theorem eAcuteBytes_length : ∀ n, (eAcuteBytes n).length = 2 * n := by
  intro n
  induction n with
  | zero => rfl
  | succ k ih => simp [eAcuteBytes, ih]; omega

theorem utf8Decode_eAcuteBytes (n : Nat) :
    utf8Decode (eAcuteBytes n) = some (List.replicate n (Char.ofNat 233)) := by
  rw [utf8Decode, utf8DecodeF_eAcuteBytes n _ (by rw [eAcuteBytes_length])]

/-- A text extension is never an image extension. -/
theorem textExts_not_imageExts (e : String) (h : textExts.contains e = true) :
    imageExts.contains e = false := by
  simp only [textExts, List.contains_cons, Bool.or_eq_true, beq_iff_eq,
    List.contains_nil] at h
  rcases h with h | h | h | h | h | h | h | h | h
  all_goals first
  | (subst h; decide)
  | simp at h

/-- A load of a valid directory preserves the selection invariant. -/
theorem selOk_load (fs : FS) (st : Explorer) (p : String) (h : selOk st) :
    selOk (load_directory fs st p).st := by
  rcases load_st_cases fs st p with ⟨h1, _⟩ | h1
  · exact Or.inl h1
  · rw [h1]; exact h

/-- `handle_upload` leaves the window state alone or reloads the current
directory. -/
theorem handle_upload_st (fs : FS) (st : Explorer) (cmd : Command) :
    (handle_upload fs st cmd).st = st ∨
      ∃ fs1 p, (handle_upload fs st cmd).st = (load_directory fs1 st p).st := by
  unfold handle_upload
  dsimp only
  split
  · split
    · exact Or.inl rfl
    · exact Or.inr ⟨_, _, rfl⟩
  · exact Or.inl rfl

/-- `handle_download_request` never touches the window state. -/
theorem handle_download_st (fs : FS) (st : Explorer) :
    (handle_download_request fs st).st = st := by
  unfold handle_download_request
  dsimp only
  split
  · split <;> rfl
  · rfl

/-- `handle_delete` leaves the window state alone or reloads the current
directory. -/
theorem handle_delete_st (fs : FS) (st : Explorer) :
    (handle_delete fs st).st = st ∨
      ∃ fs1 p, (handle_delete fs st).st = (load_directory fs1 st p).st := by
  unfold handle_delete
  dsimp only
  split
  · split
    · split
      · exact Or.inl rfl
      · exact Or.inr ⟨_, _, rfl⟩
    · split
      · split
        · exact Or.inl rfl
        · exact Or.inr ⟨_, _, rfl⟩
      · exact Or.inr ⟨_, _, rfl⟩
  · exact Or.inl rfl

/-- `handle_command` leaves the window state alone or reloads a directory. -/
theorem handle_command_st (fs : FS) (st : Explorer) (c : Command) :
    (handle_command fs st c).st = st ∨
      ∃ fs1 p, (handle_command fs st c).st = (load_directory fs1 st p).st := by
  unfold handle_command
  split
  · exact handle_upload_st fs st c
  · split
    · exact Or.inl (handle_download_st fs st)
    · split
      · exact handle_delete_st fs st
      · exact Or.inl rfl

/-- `on_path_changed` leaves the state alone or loads the typed directory. -/
theorem on_path_changed_st (fs : FS) (st : Explorer) (t : String) :
    (on_path_changed fs st t).st = st ∨
      ∃ fs1 p, (on_path_changed fs st t).st = (load_directory fs1 st p).st := by
  unfold on_path_changed
  dsimp only
  split
  · exact Or.inr ⟨_, _, rfl⟩
  · exact Or.inl rfl

/-- `on_up_clicked` leaves the state alone or loads the parent. -/
theorem on_up_clicked_st (fs : FS) (st : Explorer) :
    (on_up_clicked fs st).st = st ∨
      ∃ fs1 p, (on_up_clicked fs st).st = (load_directory fs1 st p).st := by
  unfold on_up_clicked
  dsimp only
  split
  · exact Or.inr ⟨_, _, rfl⟩
  · exact Or.inl rfl

/-- `on_file_activated` leaves the state alone or loads the activated
directory. -/
theorem on_file_activated_st (fs : FS) (st : Explorer) (i : Nat) :
    (on_file_activated fs st i).st = st ∨
      ∃ fs1 p, (on_file_activated fs st i).st = (load_directory fs1 st p).st := by
  unfold on_file_activated
  dsimp only
  split
  · exact Or.inl rfl
  · split
    · exact Or.inr ⟨_, _, rfl⟩
    · exact Or.inl rfl

/-- The state after a cursor change: same path, same rows, and the selection
is nothing or the full path of one of the rows. -/
theorem user_select_st (fs : FS) (st : Explorer) (cur : Option Nat) :
    (user_select fs st cur).st.currentPath = st.currentPath ∧
      (user_select fs st cur).st.entries = st.entries ∧
      ((user_select fs st cur).st.selected = none ∨
        ∃ e ∈ st.entries, (user_select fs st cur).st.selected = some e.fullPath) := by
  unfold user_select
  dsimp only
  refine ⟨rfl, rfl, ?_⟩
  cases cur with
  | none => exact Or.inl rfl
  | some i =>
    match hei : st.entries[i]? with
    | none => left; simp [hei]
    | some e =>
      right
      exact ⟨e, List.getElem?_mem hei, by simp [hei]⟩

/-- `handle_upload` never emits a `state` message. -/
theorem handle_upload_no_state (fs : FS) (st : Explorer) (cmd : Command) :
    ∀ m ∈ (handle_upload fs st cmd).msgs, m.isStateMsg = false := by
  unfold handle_upload
  dsimp only
  split
  · split
    · intro m hm
      simp only [List.mem_singleton] at hm
      subst hm; rfl
    · intro m hm
      simp only [load_msgs_nil, List.nil_append, List.mem_singleton] at hm
      subst hm; rfl
  · intro m hm
    simp at hm

/-- `handle_download_request` never emits a `state` message. -/
theorem handle_download_no_state (fs : FS) (st : Explorer) :
    ∀ m ∈ (handle_download_request fs st).msgs, m.isStateMsg = false := by
  unfold handle_download_request
  dsimp only
  split
  · split
    · intro m hm
      simp only [List.mem_singleton] at hm
      subst hm; rfl
    · intro m hm
      simp only [List.mem_singleton] at hm
      subst hm; rfl
  · intro m hm
    simp at hm

/-- `handle_delete` never emits a `state` message. -/
theorem handle_delete_no_state (fs : FS) (st : Explorer) :
    ∀ m ∈ (handle_delete fs st).msgs, m.isStateMsg = false := by
  unfold handle_delete
  dsimp only
  split
  · split
    · split
      · intro m hm
        simp only [List.mem_singleton] at hm
        subst hm; rfl
      · intro m hm
        simp only [load_msgs_nil, List.nil_append, List.mem_singleton] at hm
        subst hm; rfl
    · split
      · split
        · intro m hm
          simp only [List.mem_singleton] at hm
          subst hm; rfl
        · intro m hm
          simp only [load_msgs_nil, List.nil_append, List.mem_singleton] at hm
          subst hm; rfl
      · intro m hm
        simp only [load_msgs_nil, List.nil_append, List.mem_singleton] at hm
        subst hm; rfl
  · intro m hm
    simp at hm

/-- A non-empty string is truthy. -/
theorem strTruthy_some (s : String) (h : s.data ≠ []) : strTruthy (some s) = true := by
  simp [strTruthy, List.isEmpty_iff, h]

/-- C2, amended: an inbound upload command whose `filename` or `data` field
is absent is silently ignored by the upload handler: no file is written, no
message of any kind (in particular no `Error`) is emitted. -/
theorem c2_upload_missing_field_silent (fs : FS) (st : Explorer) (cmd : Command)
    (h : cmd.filename = none ∨ cmd.data = none) :
    handle_upload fs st cmd = ⟨fs, st, [], []⟩ := by
  unfold handle_upload
  rcases h with h | h <;> rw [h]
  · rw [if_neg (by simp [strTruthy])]
  · rw [if_neg (by simp [strTruthy])]

/-- C2 witness: the amended statement at a concrete command missing `data`. -/
theorem c2_witness :
    handle_upload fsEx stEx { type := "upload", filename := some "f.txt", data := none } =
      ⟨fsEx, stEx, [], []⟩ :=
  c2_upload_missing_field_silent fsEx stEx _ (Or.inr rfl)

/-- C2 counterexample: an upload command with the `data` field absent makes
the handler emit no message at all — the `Error` message the claim requires
is never sent (and no file is written: the filesystem is unchanged). -/
theorem c2_counterexample :
    (handle_upload fsEx stEx { type := "upload", filename := some "n.txt", data := none }).msgs
        = [] ∧
    (handle_upload fsEx stEx { type := "upload", filename := some "n.txt", data := none }).fs
        = fsEx := by
  decide

/-- C3: deleting a selected non-empty directory leaves the filesystem and the
whole window state (in particular `entries`) unchanged, emits exactly one
`Error` carrying the message of the raised `rmdir` failure verbatim, and does
not emit `DeleteComplete`. -/
theorem c3_delete_nonempty_dir (fs : FS) (st : Explorer) (d : String)
    (hsel : st.selected = some d) (hne : d.data ≠ [])
    (hf : fs.isfile d = false) (hd : fs.isdir d = true)
    (hc : fs.childNames d ≠ []) :
    handle_delete fs st = ⟨fs, st, [Msg.error ("Directory not empty: " ++ d)], []⟩ ∧
    fs.rmdir d = Except.error ("Directory not empty: " ++ d) := by
  have hrm : fs.rmdir d = Except.error ("Directory not empty: " ++ d) := by
    unfold FS.rmdir
    rw [if_pos (by simp [List.isEmpty_iff, hc])]
  refine ⟨?_, hrm⟩
  unfold handle_delete get_selected_file
  rw [hsel]
  dsimp only
  rw [if_pos (strTruthy_some d hne)]
  simp only [Option.getD_some]
  rw [if_neg (by simp [hf]), if_pos hd, hrm]

/-- C3 witness: deleting a selected subdirectory that contains a file. -/
theorem c3_witness :
    handle_delete { files := [("/home/sub/x", [1])], dirs := ["/home", "/home/sub"] }
        ⟨"/home", [], some "/home/sub"⟩ =
      ⟨{ files := [("/home/sub/x", [1])], dirs := ["/home", "/home/sub"] },
        ⟨"/home", [], some "/home/sub"⟩,
        [Msg.error ("Directory not empty: " ++ "/home/sub")], []⟩ ∧
    FS.rmdir { files := [("/home/sub/x", [1])], dirs := ["/home", "/home/sub"] } "/home/sub" =
      Except.error ("Directory not empty: " ++ "/home/sub") :=
  c3_delete_nonempty_dir _ _ _ rfl (by decide) (by decide) (by decide) (by decide)

/-- C4, amended: `get_available_actions` always offers `upload`, and its
result is determined by the selection together with the filesystem's
classification (`isfile` / `isdir`) of the selected path — but not by the
selection alone, since it probes the live filesystem. -/
theorem c4_actions_pure :
    (∀ (fs : FS) (sel : Option String), "upload" ∈ get_available_actions fs sel) ∧
    (∀ (fs fs1 : FS) (s : String), fs.isfile s = fs1.isfile s → fs.isdir s = fs1.isdir s →
      get_available_actions fs (some s) = get_available_actions fs1 (some s)) ∧
    (∀ fs fs1 : FS, get_available_actions fs none = get_available_actions fs1 none) := by
  refine ⟨?_, ?_, fun fs fs1 => rfl⟩
  · intro fs sel
    unfold get_available_actions
    dsimp only
    split
    · simp
    · split <;> simp
  · intro fs fs1 s h1 h2
    unfold get_available_actions
    simp only [Option.getD_some, h1, h2]

/-- C4 witness: same selection, same classification of the selected path
(two filesystems differing only in the file's contents), equal actions; and
`upload` is offered. -/
theorem c4_witness :
    get_available_actions { files := [("/home/a.txt", [104, 105])], dirs := ["/home"] }
        (some "/home/a.txt") =
      get_available_actions { files := [("/home/a.txt", [1, 2, 3])], dirs := ["/home"] }
        (some "/home/a.txt") ∧
    "upload" ∈ get_available_actions fsEx (some "/home/a.txt") :=
  ⟨c4_actions_pure.2.1 _ _ _ (by decide) (by decide), c4_actions_pure.1 fsEx _⟩

/-- C4 counterexample: the same selection state yields different action sets
against two filesystem states (one where the selected path is a regular
file, one where it does not exist), so `availableActions` is not a function
of the selection state alone. -/
theorem c4_counterexample :
    get_available_actions { files := [("/home/f", [104])], dirs := ["/home"] } (some "/home/f") ≠
      get_available_actions { dirs := ["/home"] } (some "/home/f") := by
  decide

/-- C9: a delete command under a stale selection — a truthy selected path
that is neither an existing regular file nor an existing directory — removes
nothing (the filesystem component is returned unchanged), reloads the
current directory, and emits `DeleteComplete`, not an `Error`. -/
theorem c9_delete_stale_selection (fs : FS) (st : Explorer) (s : String)
    (hsel : st.selected = some s) (hne : s.data ≠ [])
    (hf : fs.isfile s = false) (hd : fs.isdir s = false) :
    handle_delete fs st = ⟨fs, (load_directory fs st st.currentPath).st,
      [Msg.deleteComplete], (load_directory fs st st.currentPath).logs⟩ := by
  unfold handle_delete get_selected_file
  rw [hsel]
  dsimp only
  rw [if_pos (strTruthy_some s hne)]
  simp only [Option.getD_some]
  rw [if_neg (by simp [hf]), if_neg (by simp [hd])]
  rw [load_msgs_nil, load_fs_eq, List.nil_append]

/-- C9 witness: deleting while a vanished path is selected. -/
theorem c9_witness :
    handle_delete fsEx ⟨"/home", [], some "/home/gone"⟩ =
      ⟨fsEx, (load_directory fsEx ⟨"/home", [], some "/home/gone"⟩ "/home").st,
        [Msg.deleteComplete],
        (load_directory fsEx ⟨"/home", [], some "/home/gone"⟩ "/home").logs⟩ :=
  c9_delete_stale_selection fsEx _ _ rfl (by decide) (by decide) (by decide)

/-- C10: a directory load that passes the `isdir` check but whose listing
raises is not atomic — `current_path` is updated, the store is left cleared
and the selection unset, nothing is printed to the protocol stream, and the
diagnostic goes to stderr. -/
theorem c10_load_listing_failure (fs : FS) (st : Explorer) (p : String)
    (hd : fs.isdir p = true) (hl : fs.listFail.contains p = true) :
    load_directory fs st p =
      ⟨fs, ⟨p, [], none⟩, [],
        ["Error loading directory: " ++ ("listing failed: " ++ p)]⟩ := by
  unfold load_directory FS.listdir
  rw [if_pos hd, if_pos hl]

/-- C10 witness: loading a readable-looking directory whose `listdir`
raises. -/
theorem c10_witness :
    load_directory { dirs := ["/d"], listFail := ["/d"] } ⟨"/x", [], none⟩ "/d" =
      ⟨{ dirs := ["/d"], listFail := ["/d"] }, ⟨"/d", [], none⟩, [],
        ["Error loading directory: " ++ ("listing failed: " ++ "/d")]⟩ :=
  c10_load_listing_failure _ _ _ (by decide) (by decide)

/-- C7: a successful directory load (valid directory, listing succeeds)
produces entries sorted by name; no entry is hidden; every entry's `stat`
succeeded; every non-hidden child whose `stat` succeeds is present; and
nothing is printed to stdout or stderr — children with failing `stat` are
skipped silently, not reported. -/
theorem c7_load_sorted_filtered (fs : FS) (st : Explorer) (p : String)
    (hd : fs.isdir p = true) (hl : fs.listFail.contains p = false) :
    (load_directory fs st p).st.entries.Pairwise (fun a b => nameLe a.name b.name = true) ∧
    (∀ e ∈ (load_directory fs st p).st.entries, strHasPre "." e.name = false) ∧
    (∀ e ∈ (load_directory fs st p).st.entries, fs.stat e.fullPath ≠ none) ∧
    (∀ n ∈ fs.childNames p, strHasPre "." n = false → fs.stat (pathJoin p n) ≠ none →
      ∃ e ∈ (load_directory fs st p).st.entries, e.name = n ∧ e.fullPath = pathJoin p n) ∧
    (load_directory fs st p).msgs = [] ∧ (load_directory fs st p).logs = [] := by
  have hload : load_directory fs st p =
      ⟨fs, ⟨p, (sortNames (fs.childNames p)).filterMap (rowOf fs p), none⟩, [], []⟩ := by
    unfold load_directory FS.listdir
    rw [if_pos hd, if_neg (by simp only [hl]; exact Bool.false_ne_true)]
  rw [hload]
  dsimp only
  refine ⟨?_, ?_, ?_, ?_, rfl, rfl⟩
  · refine List.Pairwise.filterMap (rowOf fs p) ?_ (sortNames_pairwise (fs.childNames p))
    intro a a1 hle b hb b1 hb1
    have hbs := rowOf_eq_some fs p a b (Option.mem_def.mp hb)
    have hb1s := rowOf_eq_some fs p a1 b1 (Option.mem_def.mp hb1)
    rw [hbs.1, hb1s.1]
    exact hle
  · intro e he
    rcases List.mem_filterMap.mp he with ⟨n, _, hrow⟩
    have h1 := rowOf_eq_some fs p n e hrow
    rw [h1.1]
    exact h1.2.2.1
  · intro e he
    rcases List.mem_filterMap.mp he with ⟨n, _, hrow⟩
    have h1 := rowOf_eq_some fs p n e hrow
    rw [h1.2.1]
    exact h1.2.2.2
  · intro n hn hh hs
    rcases rowOf_isSome fs p n hh hs with ⟨e, hrow, hname, hpath⟩
    exact ⟨e, List.mem_filterMap.mpr ⟨n, (mem_sortNames n _).mpr hn, hrow⟩, hname, hpath⟩

/-- C7 witness: loading a directory holding a visible file, a hidden file, a
file whose `stat` raises, and a subdirectory. -/
theorem c7_witness :
    (load_directory fsLoadEx stEx "/home").st.entries.Pairwise
        (fun a b => nameLe a.name b.name = true) ∧
    (∀ e ∈ (load_directory fsLoadEx stEx "/home").st.entries, strHasPre "." e.name = false) ∧
    (∀ e ∈ (load_directory fsLoadEx stEx "/home").st.entries, fsLoadEx.stat e.fullPath ≠ none) ∧
    (∀ n ∈ fsLoadEx.childNames "/home", strHasPre "." n = false →
      fsLoadEx.stat (pathJoin "/home" n) ≠ none →
      ∃ e ∈ (load_directory fsLoadEx stEx "/home").st.entries,
        e.name = n ∧ e.fullPath = pathJoin "/home" n) ∧
    (load_directory fsLoadEx stEx "/home").msgs = [] ∧
    (load_directory fsLoadEx stEx "/home").logs = [] :=
  c7_load_sorted_filtered fsLoadEx stEx "/home" (by decide) (by decide)

/-- C8: loading a valid directory always clears the selection; the
no-dangling-selection invariant (`selOk`) is preserved by every transition —
commands and user gestures alike; and any transition that changes
`current_path` leaves the selection unset. -/
theorem c8_selection_invariant :
    (∀ (fs : FS) (st : Explorer) (p : String), fs.isdir p = true →
      (load_directory fs st p).st.selected = none) ∧
    (∀ (fs : FS) (st : Explorer) (op : Op), selOk st → selOk (step fs st op).st) ∧
    (∀ (fs : FS) (st : Explorer) (op : Op),
      (step fs st op).st.currentPath ≠ st.currentPath → (step fs st op).st.selected = none) := by
  refine ⟨load_sel_none, ?_, ?_⟩
  · intro fs st op h
    cases op with
    | command c =>
      show selOk (handle_command fs st c).st
      rcases handle_command_st fs st c with h1 | ⟨fs1, p, h1⟩
      · rw [h1]; exact h
      · rw [h1]; exact selOk_load fs1 st p h
    | pathEdit t =>
      show selOk (on_path_changed fs st t).st
      rcases on_path_changed_st fs st t with h1 | ⟨fs1, p, h1⟩
      · rw [h1]; exact h
      · rw [h1]; exact selOk_load fs1 st p h
    | upClick =>
      show selOk (on_up_clicked fs st).st
      rcases on_up_clicked_st fs st with h1 | ⟨fs1, p, h1⟩
      · rw [h1]; exact h
      · rw [h1]; exact selOk_load fs1 st p h
    | activate i =>
      show selOk (on_file_activated fs st i).st
      rcases on_file_activated_st fs st i with h1 | ⟨fs1, p, h1⟩
      · rw [h1]; exact h
      · rw [h1]; exact selOk_load fs1 st p h
    | selectRow cur =>
      show selOk (user_select fs st cur).st
      rcases (user_select_st fs st cur).2.2 with h1 | ⟨e, he, h1⟩
      · exact Or.inl h1
      · exact Or.inr (Or.inr ⟨e, he, h1⟩)
  · intro fs st op h
    cases op with
    | command c =>
      simp only [step] at h
      show (handle_command fs st c).st.selected = none
      rcases handle_command_st fs st c with h1 | ⟨fs1, p, h1⟩
      · rw [h1] at h; exact absurd rfl h
      · rcases load_st_cases fs1 st p with ⟨h2, _⟩ | h2
        · rw [h1]; exact h2
        · rw [h1, h2] at h; exact absurd rfl h
    | pathEdit t =>
      simp only [step] at h
      show (on_path_changed fs st t).st.selected = none
      rcases on_path_changed_st fs st t with h1 | ⟨fs1, p, h1⟩
      · rw [h1] at h; exact absurd rfl h
      · rcases load_st_cases fs1 st p with ⟨h2, _⟩ | h2
        · rw [h1]; exact h2
        · rw [h1, h2] at h; exact absurd rfl h
    | upClick =>
      simp only [step] at h
      show (on_up_clicked fs st).st.selected = none
      rcases on_up_clicked_st fs st with h1 | ⟨fs1, p, h1⟩
      · rw [h1] at h; exact absurd rfl h
      · rcases load_st_cases fs1 st p with ⟨h2, _⟩ | h2
        · rw [h1]; exact h2
        · rw [h1, h2] at h; exact absurd rfl h
    | activate i =>
      simp only [step] at h
      show (on_file_activated fs st i).st.selected = none
      rcases on_file_activated_st fs st i with h1 | ⟨fs1, p, h1⟩
      · rw [h1] at h; exact absurd rfl h
      · rcases load_st_cases fs1 st p with ⟨h2, _⟩ | h2
        · rw [h1]; exact h2
        · rw [h1, h2] at h; exact absurd rfl h
    | selectRow cur =>
      simp only [step] at h
      exact absurd (user_select_st fs st cur).1 h

/-- C8 witness: a load clears a selection; the invariant survives a concrete
command; a concrete path-changing gesture leaves the selection unset. -/
theorem c8_witness :
    (load_directory fsEx stSelEx "/home").st.selected = none ∧
    selOk (step fsEx stSelEx (Op.command ⟨"delete", none, none⟩)).st ∧
    (step fsLoadEx stEx (Op.pathEdit "/home/sub")).st.selected = none :=
  ⟨c8_selection_invariant.1 fsEx stSelEx "/home" (by decide),
   c8_selection_invariant.2.1 fsEx stSelEx _
     (Or.inr (Or.inr ⟨⟨"a.txt", some 2, "/home/a.txt", false⟩, by decide, rfl⟩)),
   c8_selection_invariant.2.2 fsLoadEx stEx (Op.pathEdit "/home/sub") (by decide)⟩

/-- C6, amended: the user gestures that mutate path or selection (path entry
change to a valid directory, Up away from the root, activating a directory
row, any cursor change) emit exactly one `state` message reflecting the new
model state — but inbound commands never emit a `state` message: their
handlers send only the completion or error message, leaving the platform's
view of path, selection and actions stale. -/
theorem c6_state_emission :
    (∀ (fs : FS) (st : Explorer) (c : Command),
      ∀ m ∈ (handle_command fs st c).msgs, m.isStateMsg = false) ∧
    (∀ (fs : FS) (st : Explorer) (t : String), fs.isdir t = true →
      (on_path_changed fs st t).msgs = [stateMsg fs (load_directory fs st t).st]) ∧
    (∀ (fs : FS) (st : Explorer), dirname st.currentPath ≠ st.currentPath →
      (on_up_clicked fs st).msgs =
        [stateMsg fs (load_directory fs st (dirname st.currentPath)).st]) ∧
    (∀ (fs : FS) (st : Explorer) (i : Nat) (e : Entry), st.entries[i]? = some e →
      fs.isdir e.fullPath = true →
      (on_file_activated fs st i).msgs = [stateMsg fs (load_directory fs st e.fullPath).st]) ∧
    (∀ (fs : FS) (st : Explorer) (cur : Option Nat),
      (user_select fs st cur).msgs = [stateMsg fs (user_select fs st cur).st]) := by
  refine ⟨?_, ?_, ?_, ?_, ?_⟩
  · intro fs st c
    unfold handle_command
    split
    · exact handle_upload_no_state fs st c
    · split
      · exact handle_download_no_state fs st
      · split
        · exact handle_delete_no_state fs st
        · intro m hm; simp at hm
  · intro fs st t h
    unfold on_path_changed
    rw [if_pos h]
    dsimp only
    rw [load_msgs_nil, load_fs_eq, List.nil_append]
  · intro fs st h
    unfold on_up_clicked
    dsimp only
    rw [if_pos (by simp [bne_iff_ne, h])]
    rw [load_msgs_nil, load_fs_eq, List.nil_append]
  · intro fs st i e hei h
    unfold on_file_activated
    rw [hei]
    dsimp only
    rw [if_pos h]
    rw [load_msgs_nil, load_fs_eq, List.nil_append]
  · intro fs st cur
    rfl

/-- C6 witness: a cursor change emits the fresh state snapshot; a path edit
to a valid directory emits the state for the newly loaded directory. -/
theorem c6_witness :
    (user_select fsEx stSelEx none).msgs =
      [stateMsg fsEx (user_select fsEx stSelEx none).st] ∧
    (on_path_changed fsLoadEx stEx "/home/sub").msgs =
      [stateMsg fsLoadEx (load_directory fsLoadEx stEx "/home/sub").st] :=
  ⟨c6_state_emission.2.2.2.2 fsEx stSelEx none,
   c6_state_emission.2.1 fsLoadEx stEx "/home/sub" (by decide)⟩

/-- C6 counterexample: an upload command that reaches its terminal outcome
(`upload_complete`) and changes the model state (the reload clears the
selection that was present) emits no `state` message at all — its message
list is exactly the completion message. -/
theorem c6_counterexample :
    (handle_command fsEx stSelEx ⟨"upload", some "n.txt", some "aGk="⟩).msgs =
      [Msg.uploadComplete "n.txt"] ∧
    stSelEx.selected = some "/home/a.txt" ∧
    (handle_command fsEx stSelEx ⟨"upload", some "n.txt", some "aGk="⟩).st.selected = none := by
  decide

/-- C5, amended: previewing a file with a text extension loads at most
10000 UTF-8 characters — not bytes — of the decoded content
(`f.read(10000)` in text mode): the displayed content is the decoded
content truncated to 10000 characters, and it is a strict prefix exactly
when the decoded content has more than 10000 characters; no explicit
truncation flag exists anywhere. For multi-byte characters the loaded
content can therefore span far more than 10000 bytes of the file. -/
theorem c5_preview_text_cap (fs : FS) (p : String) (bytes : List Nat) (chars : List Char)
    (hext : textExts.contains (lowerStr (extOf p)) = true)
    (hread : fs.readF p = Except.ok bytes)
    (hdec : utf8Decode bytes = some chars) :
    preview_file fs p = Preview.text (String.mk (chars.take 10000)) ∧
    (chars.take 10000).length ≤ 10000 ∧
    ((chars.take 10000 ≠ chars) ↔ 10000 < chars.length) := by
  refine ⟨?_, by simp [List.length_take], ?_⟩
  · unfold preview_file
    dsimp only
    rw [if_neg (by simp only [textExts_not_imageExts _ hext]; exact Bool.false_ne_true),
      if_pos hext]
    unfold preview_text
    simp only [hread, hdec]
  · constructor
    · intro hne
      by_contra hle
      push_neg at hle
      exact hne (List.take_of_length_le hle)
    · intro hlt hEq
      have h2 := congrArg List.length hEq
      simp only [List.length_take] at h2
      omega

/-- C5 witness: the amended statement at a two-character ASCII text file. -/
theorem c5_witness :
    preview_file fsEx "/home/a.txt" = Preview.text (String.mk (['h', 'i'].take 10000)) ∧
    (['h', 'i'].take 10000).length ≤ 10000 ∧
    ((['h', 'i'].take 10000 ≠ ['h', 'i']) ↔ 10000 < (['h', 'i'] : List Char).length) :=
  c5_preview_text_cap fsEx "/home/a.txt" [104, 105] ['h', 'i']
    (by decide) rfl (by decide)

/-- Previewing a text file holding `n` two-byte characters shows the decoded
characters, capped at 10000. -/
theorem preview_file_eAcute (n : Nat) :
    preview_file { files := [("/home/t.txt", eAcuteBytes n)], dirs := ["/home"] }
        "/home/t.txt" =
      Preview.text (String.mk ((List.replicate n (Char.ofNat 233)).take 10000)) := by
  unfold preview_file
  dsimp only
  rw [if_neg (by decide), if_pos (by decide)]
  unfold preview_text
  have hread : FS.readF { files := [("/home/t.txt", eAcuteBytes n)], dirs := ["/home"] }
      "/home/t.txt" = Except.ok (eAcuteBytes n) := by
    unfold FS.readF
    rw [if_neg (by simp)]
    simp [List.lookup]
  simp only [hread, utf8Decode_eAcuteBytes]

/-- C5 counterexample: a `.txt` file of 10000 two-byte UTF-8 characters is
20000 bytes long, yet the preview loads and shows the decoded content of the
entire file — more than the 10000-byte cap the claim asserts — and nothing
records that the file exceeded any cap: the code caps characters, not bytes,
and has no truncation flag. -/
theorem c5_counterexample :
    preview_file { files := [("/home/t.txt", eAcuteBytes 10000)], dirs := ["/home"] }
        "/home/t.txt" =
      Preview.text (String.mk (List.replicate 10000 (Char.ofNat 233))) ∧
    (eAcuteBytes 10000).length = 20000 ∧
    utf8Decode (eAcuteBytes 10000) = some (List.replicate 10000 (Char.ofNat 233)) := by
  refine ⟨?_, by rw [eAcuteBytes_length], utf8Decode_eAcuteBytes 10000⟩
  have h1 := preview_file_eAcute 10000
  rw [show (List.replicate 10000 (Char.ofNat 233)).take 10000 =
    List.replicate 10000 (Char.ofNat 233) from
      List.take_of_length_le (by rw [List.length_replicate])] at h1
  exact h1

/-- A fully valid upload writes the decoded payload, reloads the current
directory and reports `upload_complete`. -/
theorem handle_upload_ok (fs : FS) (st : Explorer) (F data : String)
    (htF : strTruthy (some F) = true) (htD : strTruthy (some data) = true)
    (hw : fs.writeFail.contains (pathJoin st.currentPath F) = false) :
    handle_upload fs st ⟨"upload", some F, some data⟩ =
      ⟨fs.writePut (pathJoin st.currentPath F) (b64decodeStr data),
        (load_directory (fs.writePut (pathJoin st.currentPath F) (b64decodeStr data))
          st st.currentPath).st,
        [Msg.uploadComplete F],
        (load_directory (fs.writePut (pathJoin st.currentPath F) (b64decodeStr data))
          st st.currentPath).logs⟩ := by
  unfold handle_upload
  dsimp only
  rw [if_pos (by rw [htF, htD]; rfl)]
  simp only [Option.getD_some]
  have hwF : fs.writeF (pathJoin st.currentPath F) (b64decodeStr data) =
      Except.ok (fs.writePut (pathJoin st.currentPath F) (b64decodeStr data)) := by
    unfold FS.writeF
    rw [if_neg (by simp only [hw]; exact Bool.false_ne_true)]
  rw [hwF]
  dsimp only
  rw [load_msgs_nil, load_fs_eq, List.nil_append]

/-- A download request with a readable regular file selected emits exactly
the `download_data` message with the base64 payload. -/
theorem handle_download_msgs (fs : FS) (st : Explorer) (p : String) (bytes : List Nat)
    (hsel : st.selected = some p) (hne : p.data ≠ [])
    (hfile : fs.isfile p = true) (hread : fs.readF p = Except.ok bytes) :
    (handle_download_request fs st).msgs =
      [Msg.downloadData (basename p) (b64encodeStr bytes)] := by
  unfold handle_download_request get_selected_file
  rw [hsel]
  dsimp only
  simp only [Option.getD_some]
  rw [if_pos (by rw [strTruthy_some p hne, hfile]; rfl)]
  rw [hread]

/-- C1, amended: for every non-empty byte string `B` and non-empty filename
`F` (and write/stat/read on the target path succeeding), uploading `F` with
the base64 encoding of `B`, then selecting the created file and issuing a
download request, reports `upload_complete` and then emits a `DownloadData`
message whose payload is again the base64 encoding of `B` — which decodes to
exactly `B`. -/
theorem c1_upload_download_roundtrip (fs : FS) (st : Explorer) (B : List Nat) (F : String)
    (hB : B ≠ []) (hBv : ∀ b ∈ B, b < 256) (hF : F.data ≠ [])
    (hw : fs.writeFail.contains (pathJoin st.currentPath F) = false)
    (hs : fs.statFail.contains (pathJoin st.currentPath F) = false)
    (hr : fs.readFail.contains (pathJoin st.currentPath F) = false) :
    (handle_upload fs st ⟨"upload", some F, some (b64encodeStr B)⟩).msgs =
      [Msg.uploadComplete F] ∧
    (handle_download_request
        (handle_upload fs st ⟨"upload", some F, some (b64encodeStr B)⟩).fs
        { (handle_upload fs st ⟨"upload", some F, some (b64encodeStr B)⟩).st with
            selected := some (pathJoin st.currentPath F) }).msgs =
      [Msg.downloadData (basename (pathJoin st.currentPath F)) (b64encodeStr B)] ∧
    b64decodeStr (b64encodeStr B) = B := by
  have hrt : b64decodeStr (b64encodeStr B) = B := b64_roundtrip B hBv
  have htF : strTruthy (some F) = true := strTruthy_some F hF
  have htD : strTruthy (some (b64encodeStr B)) = true :=
    strTruthy_some _ (b64encodeBytes_ne_nil B hB)
  have h1 := handle_upload_ok fs st F (b64encodeStr B) htF htD hw
  refine ⟨by rw [h1], ?_, hrt⟩
  rw [h1]
  dsimp only
  rw [hrt]
  refine handle_download_msgs _ _ _ B rfl (pathJoin_ne_nil _ _ hF) ?_ ?_
  · unfold FS.isfile FS.writePut
    dsimp only
    rw [hs]
    simp [List.lookup]
  · unfold FS.readF FS.writePut
    dsimp only
    rw [if_neg (by simp only [hr]; exact Bool.false_ne_true)]
    simp [List.lookup]

/-- C1 witness: the amended round trip at the bytes of `"hi"` uploaded as
`hi.txt` into the home directory. -/
theorem c1_witness :
    (handle_upload fsEx stEx ⟨"upload", some "hi.txt", some (b64encodeStr [104, 105])⟩).msgs =
      [Msg.uploadComplete "hi.txt"] ∧
    (handle_download_request
        (handle_upload fsEx stEx ⟨"upload", some "hi.txt", some (b64encodeStr [104, 105])⟩).fs
        { (handle_upload fsEx stEx
              ⟨"upload", some "hi.txt", some (b64encodeStr [104, 105])⟩).st with
            selected := some (pathJoin stEx.currentPath "hi.txt") }).msgs =
      [Msg.downloadData (basename (pathJoin stEx.currentPath "hi.txt"))
        (b64encodeStr [104, 105])] ∧
    b64decodeStr (b64encodeStr [104, 105]) = [104, 105] :=
  c1_upload_download_roundtrip fsEx stEx [104, 105] "hi.txt" (by decide) (by decide)
    (by decide) (by decide) (by decide) (by decide)

/-- C1 counterexample: for the empty byte string `B = []` the upload payload
is the empty string, which is falsy in Python, so the upload handler silently
does nothing: selecting the path the file should have had and issuing a
download request emits no message at all — no `DownloadData` decoding to `B`
is ever sent. The same happens for the empty filename `F = ""`. The claim as
stated, quantified over every byte string and every filename, is false. -/
theorem c1_counterexample :
    b64encodeStr [] = "" ∧
    (handle_download_request
        (handle_upload fsEx stEx ⟨"upload", some "a", some (b64encodeStr [])⟩).fs
        { (handle_upload fsEx stEx ⟨"upload", some "a", some (b64encodeStr [])⟩).st with
            selected := some (pathJoin stEx.currentPath "a") }).msgs = [] ∧
    (handle_download_request
        (handle_upload fsEx stEx ⟨"upload", some "", some (b64encodeStr [104, 105])⟩).fs
        { (handle_upload fsEx stEx ⟨"upload", some "", some (b64encodeStr [104, 105])⟩).st with
            selected := some (pathJoin stEx.currentPath "") }).msgs = [] := by
  decide
